import Mathlib

/-!
Verification development for the svgfix SVG-normalization library.

The TypeScript sources are shallowly embedded over `List Char` strings and
rational-number coordinates (the idealized real semantics of the JS number
arithmetic; NaN and infinities are represented by `Option` at the parsing
boundary).  External collaborators (the svg-path-commander geometry engine,
SVGO, the formatter) are modelled as oracle parameters.
-/

namespace Svgfix

/-- Strings are modelled as lists of characters. -/
abbrev Str := List Char

/-- JS `\s` whitespace class (ASCII part; the claims only exercise ASCII). -/
def isJsWs (c : Char) : Bool :=
  c = ' ' || c = '\t' || c = '\n' || c = '\r' || c = '\x0b' || c = '\x0c'

/-- Uppercase an ASCII letter (used to model the `/i` regex flag). -/
def upChar (c : Char) : Char :=
  if 'a' ≤ c ∧ c ≤ 'z' then Char.ofNat (c.toNat - 32) else c

/-- Case-insensitive character match against a lowercase-normalized
pattern character, as the `/i` regex flag behaves on ASCII. -/
def charCI (p c : Char) : Bool := c = p || c = upChar p

/-- Case-insensitively match a (lowercase-normalized) pattern as a prefix,
returning the remainder of the string on success. -/
def matchCI : Str → Str → Option Str
  | [], s => some s
  | _ :: _, [] => none
  | p :: ps, c :: cs => if charCI p c then matchCI ps cs else none

/-- `JsValue.split(/[\s,]+/)`: split on runs of whitespace/commas, keeping
the empty tokens JS produces at a leading or trailing separator. -/
def isSepWsComma (c : Char) : Bool := isJsWs c || c = ','

mutual
/-- Token accumulation for `jsSplitWsComma` (accumulator is reversed). -/
def splitTok (cur : Str) : Str → List Str
  | [] => [cur.reverse]
  | c :: cs => if isSepWsComma c then cur.reverse :: splitSkip cs else splitTok (c :: cur) cs
/-- Separator-run skipping for `jsSplitWsComma`. -/
def splitSkip : Str → List Str
  | [] => [[]]
  | c :: cs => if isSepWsComma c then splitSkip cs else splitTok [c] cs
end

/-- JS `s.split(/[\s,]+/)`. -/
def jsSplitWsComma (s : Str) : List Str := splitTok [] s

/-- JS `String.prototype.trim`. -/
def jsTrim (s : Str) : Str :=
  ((s.dropWhile isJsWs).reverse.dropWhile isJsWs).reverse

def isDigit (c : Char) : Bool := '0' ≤ c ∧ c ≤ '9'

def digitVal (c : Char) : Nat := c.toNat - '0'.toNat

/-- Value of a digit run. -/
def digitsVal (ds : Str) : Nat := ds.foldl (fun a c => 10 * a + digitVal c) 0

/-- Parse the longest decimal-literal prefix of `s` (after an optional sign),
JS `parseFloat`-style: integer digits, optional fraction, optional exponent.
Returns the value and the remainder; `none` when no digits are found (NaN).
Hex/`Infinity` forms are non-finite or unused here and yield `none`. -/
def parseFloatCore (s : Str) : Option (ℚ × Str) :=
  let (sgn, s1) : ℚ × Str :=
    match s with
    | '-' :: r => (-1, r)
    | '+' :: r => (1, r)
    | r => (1, r)
  let intDs := s1.takeWhile isDigit
  let s2 := s1.dropWhile isDigit
  let (fracDs, s3) :=
    match s2 with
    | '.' :: r => (r.takeWhile isDigit, r.dropWhile isDigit)
    | r => ([], r)
  if intDs = [] ∧ fracDs = [] then none
  else
    let mant : ℚ :=
      (digitsVal intDs : ℚ) + (digitsVal fracDs : ℚ) / (10 ^ fracDs.length : ℚ)
    let (v, rest) :=
      match s3 with
      | e :: r =>
        if e = 'e' ∨ e = 'E' then
          let (esgn, r1) : Bool × Str :=
            match r with
            | '-' :: r2 => (true, r2)
            | '+' :: r2 => (false, r2)
            | r2 => (false, r2)
          let expDs := r1.takeWhile isDigit
          if expDs = [] then (mant, s3)
          else if esgn then (mant / (10 ^ digitsVal expDs : ℚ), r1.dropWhile isDigit)
          else (mant * (10 ^ digitsVal expDs : ℚ), r1.dropWhile isDigit)
        else (mant, s3)
      | [] => (mant, s3)
    some (sgn * v, rest)

/-- JS `parseFloat`: skip leading whitespace, parse the longest float prefix;
`none` models NaN. -/
def jsParseFloat (s : Str) : Option ℚ :=
  (parseFloatCore (s.dropWhile isJsWs)).map Prod.fst

/-- JS `Number(...)` on a string: trimmed empty string is `0`; otherwise the
whole trimmed string must be a float literal; `none` models NaN (and the
non-finite or non-decimal forms the claims never exercise). -/
def jsNumber (s : Str) : Option ℚ :=
  let t := jsTrim s
  if t = [] then some 0
  else match parseFloatCore t with
    | some (v, []) => some v
    | _ => none

/-- Decimal digits of a natural number. -/
def natDigits (n : Nat) : Str := Nat.toDigits 10 n

/-- Smallest exponent `n ≤ 30` with `den ∣ 10^n` (terminating decimals). -/
def decExp (den : Nat) : Option Nat :=
  (List.range 31).find? (fun n => 10 ^ n % den = 0)

/-- JS number-to-string conversion, on the rational model: integers print
without a decimal point, terminating decimals print exactly.  (JS doubles
always have power-of-two denominators, so the non-terminating fallback is
never reached by the modelled code; it prints a truncated expansion.) -/
def ratToJsStr (q : ℚ) : Str :=
  let sgn : Str := if q < 0 then ['-'] else []
  let n := q.num.natAbs
  if q.den = 1 then sgn ++ natDigits n
  else
    let e := (decExp q.den).getD 30
    let scaled := n * 10 ^ e / q.den
    let ds := natDigits scaled
    let ds := if ds.length ≤ e then List.replicate (e + 1 - ds.length) '0' ++ ds else ds
    sgn ++ ds.take (ds.length - e) ++ ['.'] ++ ds.drop (ds.length - e)

/-- 2D affine transformation matrix `[a, b, c, d, e, f]`, representing
`[[a, c, e], [b, d, f], [0, 0, 1]]` (from `parse-svg.ts`). -/
@[ext] structure Matrix2D where
  a : ℚ
  b : ℚ
  c : ℚ
  d : ℚ
  e : ℚ
  f : ℚ
  deriving DecidableEq, Repr

/-- `IDENTITY_MATRIX` from `parse-svg.ts`. -/
def IDENTITY_MATRIX : Matrix2D := ⟨1, 0, 0, 1, 0, 0⟩

/-- `multiplyMatrices` from `parse-svg.ts`. -/
def multiplyMatrices (m1 m2 : Matrix2D) : Matrix2D :=
  ⟨m1.a * m2.a + m1.c * m2.b,
   m1.b * m2.a + m1.d * m2.b,
   m1.a * m2.c + m1.c * m2.d,
   m1.b * m2.c + m1.d * m2.d,
   m1.a * m2.e + m1.c * m2.f + m1.e,
   m1.b * m2.e + m1.d * m2.f + m1.f⟩

/-- Trigonometry oracle standing for the JS `Math.cos`/`Math.sin`/`Math.tan`
calls: `cosDeg d` models `Math.cos(d * Math.PI / 180)`, etc.  The transform
functions the claims exercise never evaluate it. -/
structure TrigOracle where
  cosDeg : ℚ → ℚ
  sinDeg : ℚ → ℚ
  tanDeg : ℚ → ℚ

/-- The transform-function alternation of `parseTransformToMatrix`'s regex,
lowercase-normalized (the source lowercases `match[1]`). -/
def transformFnNames : List Str :=
  ["translate".toList, "scale".toList, "rotate".toList,
   "matrix".toList, "skewx".toList, "skewy".toList]

/-- Try to match one of the transform-function names at the head. -/
def tryFnName (s : Str) : Option (Str × Str) :=
  transformFnNames.findSome? (fun n => (matchCI n s).map (fun r => (n, r)))

/-- Try to match `NAME\s*\(([^)]+)\)` at the head of `s`; returns the
lowercase name, the raw argument text and the rest after the `)`. -/
def tryCall (s : Str) : Option (Str × Str × Str) :=
  match tryFnName s with
  | none => none
  | some (n, r1) =>
    let r2 := r1.dropWhile isJsWs
    match r2 with
    | '(' :: r3 =>
      let args := r3.takeWhile (· ≠ ')')
      if args = [] then none
      else
        match r3.dropWhile (· ≠ ')') with
        | ')' :: rest => some (n, args, rest)
        | _ => none
    | _ => none

/-- Fuelled scan for `regex.exec` in a loop: advance one character on a
failed match, continue after the `)` on a successful one.  Every step
shortens the string, so fuel `s.length` is never exhausted. -/
def findCallsF : Nat → Str → List (Str × Str)
  | 0, _ => []
  | _ + 1, [] => []
  | fuel + 1, c :: cs =>
    match tryCall (c :: cs) with
    | some (n, args, rest) => (n, args) :: findCallsF fuel rest
    | none => findCallsF fuel cs

/-- All `(translate|scale|rotate|matrix|skewX|skewY)\s*\(([^)]+)\)` matches
of the transform string, in order. -/
def findTransformCalls (s : Str) : List (Str × Str) := findCallsF s.length s

/-- JS `args[i]` where the array holds parsed numbers: `none` stands for
both `undefined` (missing index) and NaN. -/
def argGet (args : List (Option ℚ)) (i : Nat) : Option ℚ :=
  (args.get? i).getD none

/-- JS `x || d` on a number: falsy (0, NaN, undefined) falls back to `d`. -/
def jsOr (x : Option ℚ) (d : ℚ) : ℚ :=
  match x with
  | some v => if v = 0 then d else v
  | none => d

/-- Direct (non-`||`-guarded) numeric use of an argument.  In JS a NaN or
`undefined` here would poison the matrix with NaN entries; the rational
model represents those unreachable-by-the-claims entries as 0. -/
def numOrZero (x : Option ℚ) : ℚ := x.getD 0

/-- The `switch (fn)` body of `parseTransformToMatrix`. -/
def applyTransformFn (trig : TrigOracle) (fn : Str) (args : List (Option ℚ)) :
    Matrix2D :=
  if fn = "translate".toList then
    ⟨1, 0, 0, 1, jsOr (argGet args 0) 0, jsOr (argGet args 1) 0⟩
  else if fn = "scale".toList then
    let sx := jsOr (argGet args 0) 1
    let sy := if 1 < args.length then numOrZero (argGet args 1) else sx
    ⟨sx, 0, 0, sy, 0, 0⟩
  else if fn = "rotate".toList then
    let deg := jsOr (argGet args 0) 0
    let co := trig.cosDeg deg
    let si := trig.sinDeg deg
    if 3 ≤ args.length then
      let cx := numOrZero (argGet args 1)
      let cy := numOrZero (argGet args 2)
      ⟨co, si, -si, co, cx - cx * co + cy * si, cy - cx * si - cy * co⟩
    else ⟨co, si, -si, co, 0, 0⟩
  else if fn = "matrix".toList then
    ⟨numOrZero (argGet args 0), numOrZero (argGet args 1),
     numOrZero (argGet args 2), numOrZero (argGet args 3),
     numOrZero (argGet args 4), numOrZero (argGet args 5)⟩
  else if fn = "skewx".toList then
    ⟨1, 0, trig.tanDeg (jsOr (argGet args 0) 0), 1, 0, 0⟩
  else if fn = "skewy".toList then
    ⟨1, trig.tanDeg (jsOr (argGet args 0) 0), 0, 1, 0, 0⟩
  else IDENTITY_MATRIX

/-- `parseTransformToMatrix` from `parse-svg.ts`: fold the recognized
function calls left-to-right by right-multiplication. -/
def parseTransformToMatrix (trig : TrigOracle) (s : Str) : Matrix2D :=
  (findTransformCalls s).foldl
    (fun acc p =>
      multiplyMatrices acc
        (applyTransformFn trig p.1 ((jsSplitWsComma p.2).map jsNumber)))
    IDENTITY_MATRIX

/-- Quote characters recognized by the `["']` regex classes. -/
def isQuote (c : Char) : Bool := c = '"' || c = Char.ofNat 39

/-- Regex `^<NAME[\s>]` with the `/i` flag. -/
def testOpenTagCI (name : Str) (tag : Str) : Bool :=
  match matchCI ('<' :: name) tag with
  | some (c :: _) => isJsWs c || c = '>'
  | _ => false

/-- Regex `^</NAME>` with the `/i` flag. -/
def testCloseTagCI (name : Str) (tag : Str) : Bool :=
  (matchCI ('<' :: '/' :: (name ++ ['>'])) tag).isSome

/-- JS `tag.endsWith("/>")`. -/
def endsWithSlashGt (tag : Str) : Bool :=
  match tag.reverse with
  | '>' :: '/' :: _ => true
  | _ => false

/-- Try `\sNAME=["']([^"']*)["']` (with `/i`) anchored at the head. -/
def tryAttrHere (name : Str) (s : Str) : Option Str :=
  match s with
  | [] => none
  | c :: cs =>
    if isJsWs c then
      match matchCI (name ++ ['=']) cs with
      | some (q :: r) =>
        if isQuote q then
          match r.dropWhile (fun x => !isQuote x) with
          | _ :: _ => some (r.takeWhile (fun x => !isQuote x))
          | [] => none
        else none
      | _ => none
    else none

/-- Leftmost match of `\sNAME=["']([^"']*)["']` (with `/i`), returning the
captured value, as `tag.match(...)` does. -/
def findSpacedAttr (name : Str) : Str → Option Str
  | [] => none
  | c :: cs =>
    match tryAttrHere name (c :: cs) with
    | some v => some v
    | none => findSpacedAttr name cs

/-- The `[MLHVCSQTAZmlhvcsqtaz]` class of path-data start letters. -/
def pathLetters : Str := "MLHVCSQTAZmlhvcsqtaz".toList

/-- Try `\sd=["']([MLHVCSQTAZmlhvcsqtaz][^"']*)["']` (with `/i`) anchored at
the head. -/
def tryDAttrHere (s : Str) : Option Str :=
  match s with
  | [] => none
  | c :: cs =>
    if isJsWs c then
      match matchCI ("d=".toList) cs with
      | some (q :: d0 :: r) =>
        if isQuote q && pathLetters.contains d0 then
          match r.dropWhile (fun x => !isQuote x) with
          | _ :: _ => some (d0 :: r.takeWhile (fun x => !isQuote x))
          | [] => none
        else none
      | _ => none
    else none

/-- Leftmost match of the path-data attribute regex. -/
def findDAttr : Str → Option Str
  | [] => none
  | c :: cs =>
    match tryDAttrHere (c :: cs) with
    | some v => some v
    | none => findDAttr cs

/-- Regex word characters, for `\b`. -/
def isWordChar (c : Char) : Bool :=
  ('a' ≤ c ∧ c ≤ 'z') || ('A' ≤ c ∧ c ≤ 'Z') || ('0' ≤ c ∧ c ≤ '9') || c = '_'

/-- Try `NAME=["']([^"']*)["']` (with `/i`) anchored at the head. -/
def tryWordAttrHere (name : Str) (s : Str) : Option Str :=
  match matchCI (name ++ ['=']) s with
  | some (q :: r) =>
    if isQuote q then
      match r.dropWhile (fun x => !isQuote x) with
      | _ :: _ => some (r.takeWhile (fun x => !isQuote x))
      | [] => none
    else none
  | _ => none

/-- Leftmost match of `\bNAME=["']([^"']*)["']` (with `/i`): the position
must sit at a word boundary, i.e. the previous character (if any) is not a
word character (the name starts with a letter). -/
def findWordAttrAux (name : Str) (prev : Option Char) : Str → Option Str
  | [] => none
  | c :: cs =>
    if (match prev with | none => true | some p => !isWordChar p) then
      match tryWordAttrHere name (c :: cs) with
      | some v => some v
      | none => findWordAttrAux name (some c) cs
    else findWordAttrAux name (some c) cs

/-- Leftmost `\bNAME=["']([^"']*)["']` match of the tag. -/
def findWordAttr (name : Str) (s : Str) : Option Str :=
  findWordAttrAux name none s

/-- One step of the tag-scanning `while` loop: skip to the next `<`, then
take everything up to and including the next `>`. -/
def splitTagsF : Nat → Str → List Str
  | 0, _ => []
  | fuel + 1, s =>
    let t := s.dropWhile (· ≠ '<')
    match t with
    | [] => []
    | _ :: _ =>
      match t.dropWhile (· ≠ '>') with
      | '>' :: rest => (t.takeWhile (· ≠ '>') ++ ['>']) :: splitTagsF fuel rest
      | _ => []

/-- The successive `<...>` tag spans of the document, as located by the
scanners' shared `while` loop (each iteration consumes at least two
characters, so fuel `s.length` is never exhausted). -/
def splitTags (s : Str) : List Str := splitTagsF s.length s

/-- `nonVisualTags` from `parse-svg.ts`. -/
def nonVisualTags : List Str :=
  ["defs".toList, "mask".toList, "filter".toList,
   "symbol".toList, "pattern".toList]

/-- The reserved name (if any) whose opening-tag regex matches a
non-self-closing tag. -/
def nvOpenName (tag : Str) : Option Str :=
  nonVisualTags.find? (fun nv => testOpenTagCI nv tag && !endsWithSlashGt tag)

/-- The reserved name (if any) whose closing-tag regex matches while also
sitting on top of the container stack. -/
def nvCloseName (stack : List Str) (tag : Str) : Option Str :=
  nonVisualTags.find? (fun nv => testCloseTagCI nv tag && stack.getLast? = some nv)

/-- State of the plain scan in `extractVisualPaths`. -/
structure PlainScanState where
  stack : List Str
  paths : List Str
  deriving DecidableEq, Repr

/-- The non-visual container stack after a tag: push when an opening
reserved tag (not self-closing), pop when a matching close tag with that
name on top. -/
def nvStackUpdate (stack : List Str) (tag : Str) : List Str :=
  let s1 :=
    match nvOpenName tag with
    | some nv => stack ++ [nv]
    | none => stack
  match nvCloseName s1 tag with
  | some _ => s1.dropLast
  | none => s1

/-- One loop iteration of `extractVisualPaths`: container push, container
pop, then path extraction while the container stack is empty. -/
def stepPlain (st : PlainScanState) (tag : Str) : PlainScanState :=
  let stack2 := nvStackUpdate st.stack tag
  if stack2 = [] then
    match findDAttr tag with
    | some d =>
      if testOpenTagCI ("path".toList) tag then
        ⟨stack2, st.paths ++ [jsTrim d]⟩
      else ⟨stack2, st.paths⟩
    | none => ⟨stack2, st.paths⟩
  else ⟨stack2, st.paths⟩

/-- `extractVisualPaths` from `parse-svg.ts`. -/
def extractVisualPaths (svgElement : Str) : List Str :=
  ((splitTags svgElement).foldl stepPlain ⟨[], []⟩).paths

/-- A scanned drawable: path data plus accumulated transform. -/
structure PathRecord where
  d : Str
  matrix : Matrix2D
  deriving DecidableEq, Repr

/-- State of the transform-aware scan. -/
structure ScanState where
  nvStack : List Str
  transformStack : List Matrix2D
  results : List PathRecord
  deriving DecidableEq, Repr

/-- Matrix pushed for an opening `<g>` tag: its parsed `transform`
attribute, or the identity when absent. -/
def gOpenMatrix (trig : TrigOracle) (tag : Str) : Matrix2D :=
  match findSpacedAttr ("transform".toList) tag with
  | some t => parseTransformToMatrix trig t
  | none => IDENTITY_MATRIX

/-- Accumulated transform: product of the group stack in push order. -/
def accumMatrix (stack : List Matrix2D) : Matrix2D :=
  stack.foldl multiplyMatrices IDENTITY_MATRIX

/-- Multiply in the element's own `transform` attribute when present. -/
def withOwnTransform (trig : TrigOracle) (tag : Str) (acc : Matrix2D) :
    Matrix2D :=
  match findSpacedAttr ("transform".toList) tag with
  | some t => multiplyMatrices acc (parseTransformToMatrix trig t)
  | none => acc

/-- `xMatch?.[1] || '0'`: missing or empty attribute falls back to `"0"`. -/
def imageAttrRaw (name : Str) (tag : Str) : Str :=
  match findWordAttr name tag with
  | some v => if v = [] then "0".toList else v
  | none => "0".toList

/-- JS template interpolation of a parsed number (`none` prints `NaN`). -/
def jsNumToStr (x : Option ℚ) : Str :=
  match x with
  | some v => ratToJsStr v
  | none => "NaN".toList

/-- The synthetic rectangle path for a raster image. -/
def imagePathD (x y w h : Option ℚ) : Str :=
  'M' :: jsNumToStr x ++ ' ' :: jsNumToStr y ++ 'h' :: jsNumToStr w ++
    'v' :: jsNumToStr h ++ 'h' :: jsNumToStr (w.map Neg.neg) ++ ['z']

/-- JS `v > 0` where `v` may be NaN. -/
def posNum (x : Option ℚ) : Bool :=
  match x with
  | some v => 0 < v
  | none => false

/-- One loop iteration of `extractVisualPathsWithTransforms`: `<g>`
transform tracking, container tracking, then path and image extraction
while the container stack is empty. -/
def gStackUpdate (trig : TrigOracle) (stack : List Matrix2D) (tag : Str) :
    List Matrix2D :=
  if testOpenTagCI ("g".toList) tag && !endsWithSlashGt tag then
    stack ++ [gOpenMatrix trig tag]
  else if testCloseTagCI ("g".toList) tag && !stack.isEmpty then
    stack.dropLast
  else stack

/-- The geometry records a tag appends once the container stack is known to
be empty: the path branch, then the raster-image branch, each multiplying
in the element's own transform. -/
def tagEmits (trig : TrigOracle) (tstack : List Matrix2D) (tag : Str) :
    List PathRecord :=
  let accumulated := accumMatrix tstack
  let rs1 :=
    match findDAttr tag with
    | some d =>
      if testOpenTagCI ("path".toList) tag then
        [⟨jsTrim d, withOwnTransform trig tag accumulated⟩]
      else []
    | none => []
  if testOpenTagCI ("image".toList) tag then
    let ix := jsParseFloat (imageAttrRaw ("x".toList) tag)
    let iy := jsParseFloat (imageAttrRaw ("y".toList) tag)
    let iw := jsParseFloat (imageAttrRaw ("width".toList) tag)
    let ih := jsParseFloat (imageAttrRaw ("height".toList) tag)
    if posNum iw && posNum ih then
      rs1 ++ [⟨imagePathD ix iy iw ih, withOwnTransform trig tag accumulated⟩]
    else rs1
  else rs1

def stepTag (trig : TrigOracle) (st : ScanState) (tag : Str) : ScanState :=
  let tstack2 := gStackUpdate trig st.transformStack tag
  let nvStack2 := nvStackUpdate st.nvStack tag
  if nvStack2 = [] then
    ⟨nvStack2, tstack2, st.results ++ tagEmits trig tstack2 tag⟩
  else ⟨nvStack2, tstack2, st.results⟩

/-- Initial state of the transform-aware scan. -/
def initScanState : ScanState := ⟨[], [], []⟩

/-- `extractVisualPathsWithTransforms` from `parse-svg.ts`. -/
def extractVisualPathsWithTransforms (trig : TrigOracle) (svgElement : Str) :
    List PathRecord :=
  ((splitTags svgElement).foldl (stepTag trig) initScanState).results

/-- Transform-function calls that never evaluate the trigonometry oracle. -/
def trigFreeCall (p : Str × Str) : Bool :=
  p.1 ≠ "rotate".toList && p.1 ≠ "skewx".toList && p.1 ≠ "skewy".toList

/-- A transform string whose recognized calls are all trig-free. -/
def trigFreeStr (s : Str) : Bool := (findTransformCalls s).all trigFreeCall

/-- The non-visual container stack stays nonempty after every tag of the
list (the scanner is inside a reserved container throughout), for the plain
scan. -/
def nvStaysPlain : PlainScanState → List Str → Bool
  | _, [] => true
  | st, t :: ts =>
    !(stepPlain st t).stack.isEmpty && nvStaysPlain (stepPlain st t) ts

/-- Same as `nvStaysPlain`, for the transform-aware scan. -/
def nvStaysScan (trig : TrigOracle) : ScanState → List Str → Bool
  | _, [] => true
  | st, t :: ts =>
    !(stepTag trig st t).nvStack.isEmpty && nvStaysScan trig (stepTag trig st t) ts

deriving instance DecidableEq for Except

/-- A local axis-aligned bounding box as returned by the external geometry
engine (`localBounds(geometryData) -> minX,minY,maxX,maxY`). -/
structure LocalBounds where
  minX : ℚ
  minY : ℚ
  maxX : ℚ
  maxY : ℚ
  deriving DecidableEq, Repr

/-- Apply a 2x3 affine matrix to a point. -/
def mapPoint (m : Matrix2D) (x y : ℚ) : ℚ × ℚ :=
  (m.a * x + m.c * y + m.e, m.b * x + m.d * y + m.f)

/-- Enclosing axis-aligned box of the four mapped corners of a box. -/
def cornerBox (m : Matrix2D) (b : LocalBounds) : LocalBounds :=
  let p1 := mapPoint m b.minX b.minY
  let p2 := mapPoint m b.maxX b.minY
  let p3 := mapPoint m b.minX b.maxY
  let p4 := mapPoint m b.maxX b.maxY
  ⟨min (min p1.1 p2.1) (min p3.1 p4.1),
   min (min p1.2 p2.2) (min p3.2 p4.2),
   max (max p1.1 p2.1) (max p3.1 p4.1),
   max (max p1.2 p2.2) (max p3.2 p4.2)⟩

/-- Component-wise min/max union of two boxes. -/
def unionBounds (b1 b2 : LocalBounds) : LocalBounds :=
  ⟨min b1.minX b2.minX, min b1.minY b2.minY,
   max b1.maxX b2.maxX, max b1.maxY b2.maxY⟩

/-- Modelled from the spec: the transform-aware contribution of one
geometry record to the union bounds (the bounds calculator of spec section
4.3 has no implementation under `src/`; only its record-producing scanner
and the plain-path `getContentBounds` are present).  The external engine's
local bounds are an oracle; an engine failure (`none`) skips the record.
If the record's matrix is the identity the local bounds are used directly,
otherwise the four corners are mapped through the matrix and enclosed. -/
def recordBounds (lb : Str → Option LocalBounds) (r : PathRecord) :
    Option LocalBounds :=
  match lb r.d with
  | none => none
  | some b =>
    some (if r.matrix = IDENTITY_MATRIX then b else cornerBox r.matrix b)

/-- Modelled from the spec: `computeBounds(records) -> BoundingBox`, the
transform-aware union-bounds computation of spec section 4.3, absent from
`src/`.  Empty input fails with `EmptyGeometryError`; if every record is
skipped the result fails with `DegenerateBoundsError`; otherwise the
per-record transform-aware boxes are unioned component-wise. -/
def computeBounds (lb : Str → Option LocalBounds) (records : List PathRecord) :
    Except Str LocalBounds :=
  if records = [] then .error ("EmptyGeometryError".toList)
  else
    match records.foldl (fun acc r =>
        match recordBounds lb r with
        | none => acc
        | some b =>
          match acc with
          | none => some b
          | some u => some (unionBounds u b)) none with
    | none => .error ("DegenerateBoundsError".toList)
    | some u => .ok u

/-- The local-bounds oracle for the worked example: the straight line
`M10,10 L20,20` has local bounds (10,10)-(20,20). -/
def lbScaleExample (d : Str) : Option LocalBounds :=
  if d = "M10,10 L20,20".toList then some ⟨10, 10, 20, 20⟩ else none

/-- Case-sensitive prefix test (JS `includes`/`lastIndexOf` are
case-sensitive). -/
def hasPrefixExact : Str → Str → Bool
  | [], _ => true
  | _ :: _, [] => false
  | p :: ps, c :: cs => p = c && hasPrefixExact ps cs

/-- JS `s.includes(pat)` (case-sensitive). -/
def containsExact (pat : Str) : Str → Bool
  | [] => hasPrefixExact pat []
  | c :: cs => hasPrefixExact pat (c :: cs) || containsExact pat cs

/-- Truncate the string right after the last case-insensitive occurrence of
`</svg>` (the greedy `[\s\S]*<\/svg>` tail of the svg-element regex). -/
def lastCloseSvgTrunc : Str → Option Str
  | [] => none
  | c :: cs =>
    match lastCloseSvgTrunc cs with
    | some r => some (c :: r)
    | none =>
      if (matchCI ("</svg>".toList) (c :: cs)).isSome then
        some ((c :: cs).take 6)
      else none

/-- Try `<svg[^>]*>[\s\S]*<\/svg>` (with `/i`) anchored at the head,
returning the matched element text. -/
def trySvgElementAt (s : Str) : Option Str :=
  match matchCI ("<svg".toList) s with
  | some r1 =>
    match r1.dropWhile (· ≠ '>') with
    | '>' :: rest =>
      match lastCloseSvgTrunc rest with
      | some mid =>
        some (s.take (4 + (r1.takeWhile (· ≠ '>')).length + 1 + mid.length))
      | none => none
    | _ => none
  | none => none

/-- Leftmost match of the svg-element regex (`svgString.match(...)`). -/
def findSvgElement : Str → Option Str
  | [] => none
  | c :: cs =>
    match trySvgElementAt (c :: cs) with
    | some e => some e
    | none => findSvgElement cs

/-- `ViewBox` from `types.ts`. -/
structure ViewBox where
  minX : ℚ
  minY : ℚ
  width : ℚ
  height : ℚ
  deriving DecidableEq, Repr

/-- Try `NAME=["']([^"']+)["']` (with `/i`, nonempty capture) anchored at
the head. -/
def tryPlainAttrHere (name : Str) (s : Str) : Option Str :=
  match matchCI (name ++ ['=']) s with
  | some (q :: r) =>
    if isQuote q then
      match r.takeWhile (fun x => !isQuote x) with
      | [] => none
      | v =>
        match r.dropWhile (fun x => !isQuote x) with
        | _ :: _ => some v
        | [] => none
    else none
  | _ => none

/-- Leftmost match of `NAME=["']([^"']+)["']` (with `/i`). -/
def findPlainAttr (name : Str) : Str → Option Str
  | [] => none
  | c :: cs =>
    match tryPlainAttrHere name (c :: cs) with
    | some v => some v
    | none => findPlainAttr name cs

/-- The viewBox-attribute parse of `parseSvg`: trim, split on
whitespace/commas, require four non-NaN numbers. -/
def parseViewBoxParts (vstr : Str) : Option ViewBox :=
  match (jsSplitWsComma (jsTrim vstr)).map jsNumber with
  | [some a, some b, some c, some d] => some ⟨a, b, c, d⟩
  | _ => none

/-- `ParsedSvg` from `types.ts`. -/
structure ParsedSvg where
  element : Str
  viewBox : Option ViewBox
  width : Option Str
  height : Option Str
  paths : List Str
  originalSvg : Str
  deriving DecidableEq, Repr

/-- `parseSvg` from `parse-svg.ts` (the input is a string by typing, so
only the emptiness and no-element failures remain). -/
def parseSvg (s : Str) : Except Str ParsedSvg :=
  if jsTrim s = [] then .error ("svgString cannot be empty".toList)
  else
    match findSvgElement s with
    | none => .error ("No <svg> element found in input string".toList)
    | some element =>
      let viewBox :=
        match findPlainAttr ("viewbox".toList) element with
        | some vstr => parseViewBoxParts vstr
        | none => none
      .ok ⟨element, viewBox, findPlainAttr ("width".toList) element,
        findPlainAttr ("height".toList) element,
        extractVisualPaths element, s⟩

/-- The bounding box returned by the external `getPathBBox`. -/
structure EngineBBox where
  x : ℚ
  y : ℚ
  x2 : ℚ
  y2 : ℚ
  deriving DecidableEq, Repr

/-- `BoundingBox` from `types.ts`. -/
structure BoundingBox where
  x : ℚ
  y : ℚ
  x2 : ℚ
  y2 : ℚ
  width : ℚ
  height : ℚ
  deriving DecidableEq, Repr

/-- `getContentBounds` from `bounds.ts`: filter blank paths, fold the
per-path engine boxes (an engine failure skips the path) into running
min/max, fail when nothing contributed. -/
def getContentBounds (bb : Str → Option EngineBBox) (paths : List Str) :
    Except Str BoundingBox :=
  if paths = [] then .error ("paths array cannot be empty".toList)
  else
    let validPaths := paths.filter (fun p => !p.isEmpty && !(jsTrim p).isEmpty)
    if validPaths = [] then .error ("no valid paths found".toList)
    else
      match validPaths.foldl (fun acc p =>
          match bb p with
          | none => acc
          | some r =>
            match acc with
            | none => some (r.x, r.y, r.x2, r.y2)
            | some (a, b, c, d) =>
              some (min a r.x, min b r.y, max c r.x2, max d r.y2)) none with
      | none => .error ("failed to calculate bounds for any paths".toList)
      | some (a, b, c, d) => .ok ⟨a, b, c, d, c - a, d - b⟩

/-- Try `viewBox=["'][^"']*["']` (with `/i`) anchored at the head,
returning the remainder after the span. -/
def tryViewBoxSpanHere (s : Str) : Option Str :=
  match matchCI ("viewbox=".toList) s with
  | some (q :: r) =>
    if isQuote q then
      match r.dropWhile (fun x => !isQuote x) with
      | _ :: after => some after
      | [] => none
    else none
  | _ => none

/-- Replace the first `viewBox=["'][^"']*["']` match with `newAttr`. -/
def replaceViewBoxAttr (newAttr : Str) : Str → Str
  | [] => []
  | c :: cs =>
    match tryViewBoxSpanHere (c :: cs) with
    | some after => newAttr ++ after
    | none => c :: replaceViewBoxAttr newAttr cs

/-- Replace the first case-insensitive `<svg` occurrence with `ins`. -/
def replaceFirstSvgOpenCI (ins : Str) : Str → Str
  | [] => []
  | c :: cs =>
    match matchCI ("<svg".toList) (c :: cs) with
    | some rest => ins ++ rest
    | none => c :: replaceFirstSvgOpenCI ins cs

/-- The `${x} ${y} ${width} ${height}` viewBox template of `crop.ts`. -/
def viewBoxString (b : BoundingBox) : Str :=
  ratToJsStr b.x ++ ' ' :: ratToJsStr b.y ++ ' ' :: ratToJsStr b.width ++
    ' ' :: ratToJsStr b.height

/-- `cropToContent` from `crop.ts`. -/
def cropToContent (s : Str) (bounds : BoundingBox) : Str :=
  let newViewBox := viewBoxString bounds
  if containsExact ("viewBox=".toList) s then
    replaceViewBoxAttr ("viewBox=\"".toList ++ newViewBox ++ ['"']) s
  else
    replaceFirstSvgOpenCI ("<svg viewBox=\"".toList ++ newViewBox ++ ['"']) s

/-- Try `\s+NAME=["'][^"']*["']` (with `/i`) anchored at the head,
returning the remainder after the span. -/
def tryWsAttrSpanHere (name : Str) (s : Str) : Option Str :=
  match s with
  | c :: cs =>
    if isJsWs c then
      match matchCI (name ++ ['=']) (cs.dropWhile isJsWs) with
      | some (q :: r) =>
        if isQuote q then
          match r.dropWhile (fun x => !isQuote x) with
          | _ :: after => some after
          | [] => none
        else none
      | _ => none
    else none
  | [] => none

/-- Rightmost `\s+NAME=...` span starting inside the leading non-`>` run
(the greedy `[^>]*` of the strip regexes); returns kept prefix and
remainder. -/
def stripScanAux (name : Str) : Str → Option (Str × Str)
  | [] => none
  | c :: cs =>
    if c = '>' then none
    else
      match stripScanAux name cs with
      | some (a, after) => some (c :: a, after)
      | none =>
        match tryWsAttrSpanHere name (c :: cs) with
        | some after => some ([], after)
        | none => none

/-- One `result.replace(/(<svg[^>]*)\s+NAME=["'][^"']*["']/i, '$1')` step:
at the leftmost `<svg` admitting a match, drop the rightmost in-run
attribute span. -/
def stripSvgAttr (name : Str) : Str → Str
  | [] => []
  | c :: cs =>
    match matchCI ("<svg".toList) (c :: cs) with
    | some u =>
      match stripScanAux name u with
      | some (a, after) => (c :: cs).take 4 ++ a ++ after
      | none => c :: stripSvgAttr name cs
    | none => c :: stripSvgAttr name cs

/-- `normalizeViewBox` from `normalize.ts`: reject non-positive sizes, set
the viewBox to `0 0 w h`, then strip the root element's explicit width,
height and aspect-ratio-preservation attributes. -/
def normalizeViewBox (s : Str) (w h : ℚ) : Except Str Str :=
  if w ≤ 0 ∨ h ≤ 0 then .error ("width and height must be positive".toList)
  else
    let newViewBox := '0' :: ' ' :: '0' :: ' ' :: ratToJsStr w ++ ' ' :: ratToJsStr h
    let r1 :=
      if containsExact ("viewBox=".toList) s then
        replaceViewBoxAttr ("viewBox=\"".toList ++ newViewBox ++ ['"']) s
      else
        replaceFirstSvgOpenCI ("<svg viewBox=\"".toList ++ newViewBox ++ ['"']) s
    let r2 := stripSvgAttr ("width".toList) r1
    let r3 := stripSvgAttr ("height".toList) r2
    .ok (stripSvgAttr ("preserveaspectratio".toList) r3)

/-- The `transform\s*=` tail test of the group-transform detection regex:
an occurrence of `transform` (case-insensitive) followed by optional
whitespace and `=`, with no `>` before it. -/
def hasTransformEq : Str → Bool
  | [] => false
  | c :: cs =>
    if (match matchCI ("transform".toList) (c :: cs) with
        | some r =>
          match r.dropWhile isJsWs with
          | '=' :: _ => true
          | _ => false
        | none => false) then true
    else if c = '>' then false
    else hasTransformEq cs

/-- `/<g\s[^>]*transform\s*=/i.test(svgString)` from `transform.ts`. -/
def hasGroupTransforms : Str → Bool
  | [] => false
  | c :: cs =>
    (match cs with
     | c1 :: c2 :: rest =>
       c = '<' && charCI 'g' c1 && isJsWs c2 && hasTransformEq rest
     | _ => false) ||
    hasGroupTransforms cs

/-- JS `String.prototype.substring` (clamps and swaps its indices). -/
def jsSubstring (s : Str) (a b : Nat) : Str :=
  let a2 := min a s.length
  let b2 := min b s.length
  (s.take (max a2 b2)).drop (min a2 b2)

/-- End index (exclusive) of the leftmost `/<svg[^>]*>/i` match. -/
def findSvgOpenEnd : Str → Option Nat
  | [] => none
  | c :: cs =>
    match matchCI ("<svg".toList) (c :: cs) with
    | some r =>
      match r.dropWhile (· ≠ '>') with
      | '>' :: _ => some (4 + (r.takeWhile (· ≠ '>')).length + 1)
      | _ => (findSvgOpenEnd cs).map (· + 1)
    | none => (findSvgOpenEnd cs).map (· + 1)

/-- JS `svgString.lastIndexOf('</svg>')` (case-sensitive), as an option. -/
def lastIndexOfCloseSvg : Str → Option Nat
  | [] => none
  | c :: cs =>
    match (lastIndexOfCloseSvg cs).map (· + 1) with
    | some k => some k
    | none =>
      if hasPrefixExact ("</svg>".toList) (c :: cs) then some 0 else none

/-- `wrapWithTranslate` from `transform.ts`. -/
def wrapWithTranslate (s : Str) (dx dy : ℚ) : Str :=
  match findSvgOpenEnd s with
  | none => s
  | some svgOpenEnd =>
    match lastIndexOfCloseSvg s with
    | none => s
    | some svgCloseIdx =>
      s.take svgOpenEnd ++
      ("<g transform=\"translate(".toList ++ ratToJsStr dx ++ ", ".toList ++
        ratToJsStr dy ++ ")\">".toList) ++
      jsSubstring s svgOpenEnd svgCloseIdx ++
      "</g>".toList ++
      s.drop svgCloseIdx

/-- Try the `(\sd=["'])([MLHVCSQTAZmlhvcsqtaz][^"']*)["']` match of
`shiftAllPathDs` anchored at the head: returns the captured prefix group,
the path data, the closing quote and the remainder. -/
def tryDMatchFull (s : Str) : Option (Str × Str × Char × Str) :=
  match s with
  | c :: dch :: e :: q :: p0 :: r =>
    if isJsWs c && charCI 'd' dch && e = '=' && isQuote q &&
        pathLetters.contains p0 then
      match r.dropWhile (fun x => !isQuote x) with
      | q2 :: after =>
        some ([c, dch, e, q], p0 :: r.takeWhile (fun x => !isQuote x), q2, after)
      | [] => none
    else none
  | _ => none

/-- `dropWhile` never lengthens a list. -/
theorem dropWhile_length_le (p : Char → Bool) (r : Str) :
    (r.dropWhile p).length ≤ r.length := by
  induction r with
  | nil => simp
  | cons c cs ih => by_cases h : p c <;> simp [List.dropWhile, h] <;> omega

/-- On a successful match the remainder is strictly shorter. -/
theorem tryDMatchFull_after_lt (s : Str) (pre data : Str) (q2 : Char)
    (after : Str) (h : tryDMatchFull s = some (pre, data, q2, after)) :
    after.length < s.length := by
  rcases s with _ | ⟨c, _ | ⟨dch, _ | ⟨e, _ | ⟨q, _ | ⟨p0, r⟩⟩⟩⟩⟩ <;>
    simp only [tryDMatchFull] at h
  all_goals try exact Option.noConfusion h
  split at h
  · cases hdrop : r.dropWhile (fun x => !isQuote x) with
    | nil => rw [hdrop] at h; exact absurd h (by simp)
    | cons q2x afterx =>
      rw [hdrop] at h
      have hlen : afterx.length + 1 ≤ r.length := by
        have h2 := congrArg List.length hdrop
        have h3 := dropWhile_length_le (fun x => !isQuote x) r
        simp at h2
        omega
      have heq : after = afterx := by
        simp at h
        exact h.2.2.2.symm
      subst heq
      simp
      omega
  · exact absurd h (by simp)

/-- `shiftAllPathDs`'s global regex replace: scan left to right, replace
each match (translated data re-serialized with a `"` quote, or the original
match text when the engine throws), resume after the match. -/
def replaceDs (tr : Str → Option Str) : Str → Str
  | [] => []
  | c :: cs =>
    match h : tryDMatchFull (c :: cs) with
    | some (pre, data, q2, after) =>
      (match tr data with
       | some nd => pre ++ nd ++ ['"']
       | none => pre ++ data ++ [q2]) ++ replaceDs tr after
    | none => c :: replaceDs tr cs
  termination_by s => s.length
  decreasing_by
    · exact tryDMatchFull_after_lt _ _ _ _ _ h
    · simp

/-- `shiftAllPathDs` from `transform.ts`, with the external
translate-and-re-serialize operation as an oracle. -/
def shiftAllPathDs (tr : Str → ℚ → ℚ → Option Str) (s : Str) (dx dy : ℚ) :
    Str :=
  replaceDs (fun d => tr d dx dy) s

/-- `transformPathsToOrigin` from `transform.ts`. -/
def transformPathsToOrigin (tr : Str → ℚ → ℚ → Option Str) (s : Str)
    (viewBox : ViewBox) : Str :=
  if viewBox.minX = 0 ∧ viewBox.minY = 0 then s
  else
    if hasGroupTransforms s then
      wrapWithTranslate s (-viewBox.minX) (-viewBox.minY)
    else
      shiftAllPathDs tr s (-viewBox.minX) (-viewBox.minY)

/-- `ProcessingOptions` from `types.ts` (`preprocessShapes` is declared but
unused by the `process.ts` pipeline). -/
structure ProcessingOptions where
  preprocessShapes : Bool
  cropWhitespace : Bool
  transformToOrigin : Bool
  normalizeViewBox : Bool
  optimize : Bool
  minify : Bool
  deriving DecidableEq, Repr

/-- `DEFAULT_OPTIONS` from `types.ts`. -/
def DEFAULT_OPTIONS : ProcessingOptions := ⟨true, true, true, true, true, false⟩

/-- The `stats` record of `ProcessingResult`. -/
structure ProcessingStats where
  originalSize : Nat
  processedSize : Nat
  viewBoxBefore : Option ViewBox
  viewBoxAfter : ViewBox
  deriving DecidableEq, Repr

/-- `ProcessingResult` from `types.ts`. -/
structure ProcessingResult where
  svg : Str
  success : Bool
  errors : List Str
  warnings : List Str
  stats : ProcessingStats
  deriving DecidableEq, Repr

/-- `processSvg` from `process.ts`.  The external collaborators are
oracles: `bb` is the per-path engine bbox (to `getContentBounds`), `tr` the
per-path translate operation (to `transformPathsToOrigin`), `opt` the
optimizer, `fmt` the formatter; an `Except.error` models a throw caught by
the per-stage `try`.  `cropToContent` and `transformPathsToOrigin` are
total on string inputs, so their `try` blocks cannot fire in the model; the
outer catch corresponds to the `parseSvg` throws. -/
def processSvg (bb : Str → Option EngineBBox) (tr : Str → ℚ → ℚ → Option Str)
    (opt : Str → Except Str Str) (fmt : Str → Bool → Except Str Str)
    (opts : ProcessingOptions) (svgString : Str) : ProcessingResult :=
  let originalSize := svgString.length
  match parseSvg svgString with
  | .error e =>
    ⟨svgString, false, ["Processing failed: ".toList ++ e], [],
     ⟨originalSize, svgString.length, none, ⟨0, 0, 0, 0⟩⟩⟩
  | .ok parsed =>
    let processedSvg := parsed.originalSvg
    let viewBoxBefore := parsed.viewBox
    if parsed.paths = [] then
      ⟨processedSvg, true, [],
       ["No paths found in SVG - nothing to process".toList],
       ⟨originalSize, processedSvg.length, viewBoxBefore,
        viewBoxBefore.getD ⟨0, 0, 0, 0⟩⟩⟩
    else
      match getContentBounds bb parsed.paths with
      | .error e =>
        ⟨processedSvg, false, ["Failed to calculate bounds: ".toList ++ e], [],
         ⟨originalSize, processedSvg.length, viewBoxBefore,
          viewBoxBefore.getD ⟨0, 0, 0, 0⟩⟩⟩
      | .ok bounds =>
        let currentViewBox : ViewBox :=
          viewBoxBefore.getD ⟨bounds.x, bounds.y, bounds.width, bounds.height⟩
        let step3 : Str × ViewBox :=
          if opts.cropWhitespace then
            (cropToContent processedSvg bounds,
             ⟨bounds.x, bounds.y, bounds.width, bounds.height⟩)
          else (processedSvg, currentViewBox)
        let svg1 := step3.1
        let cvb1 := step3.2
        let svg2 :=
          if opts.transformToOrigin ∧ (cvb1.minX ≠ 0 ∨ cvb1.minY ≠ 0) then
            transformPathsToOrigin tr svg1 cvb1
          else svg1
        let step5 : Str × ViewBox × List Str :=
          if opts.normalizeViewBox then
            match normalizeViewBox svg2 bounds.width bounds.height with
            | .ok r => (r, ⟨0, 0, bounds.width, bounds.height⟩, [])
            | .error e => (svg2, cvb1, ["Normalize failed: ".toList ++ e])
          else (svg2, cvb1, [])
        let svg3 := step5.1
        let cvb3 := step5.2.1
        let step6 : Str × List Str :=
          if opts.optimize then
            match opt svg3 with
            | .ok r => (r, [])
            | .error e => (svg3, ["Optimization failed: ".toList ++ e])
          else (svg3, [])
        let svg4 := step6.1
        let step7 : Str × List Str :=
          match fmt svg4 opts.minify with
          | .ok r => (r, [])
          | .error e => (svg4, ["Formatting failed: ".toList ++ e])
        let svg5 := step7.1
        ⟨svg5, true, [], step5.2.2 ++ step6.2 ++ step7.2,
         ⟨originalSize, svg5.length, viewBoxBefore, cvb3⟩⟩

/-- Oracle instances used by concrete witnesses: an engine that fails on
every path, one that succeeds with a fixed box, a failing translate, and
identity optimizer/formatter. -/
def bbFailAll : Str → Option EngineBBox := fun _ => none

def bbUnitBox : Str → Option EngineBBox := fun _ => some ⟨0, 0, 1, 1⟩

def trFailAll : Str → ℚ → ℚ → Option Str := fun _ _ _ => none

def optIdentity : Str → Except Str Str := fun s => .ok s

def fmtIdentity : Str → Bool → Except Str Str := fun s _ => .ok s

/-- A path `d` attribute occurrence as matched by `shiftAllPathDs`'s
regex: the whitespace, the (possibly capitalized) `d`, the opening quote,
the leading path-command letter, the remaining data and the closing
quote. -/
structure DAttrChunk where
  ws : Char
  dch : Char
  q : Char
  p0 : Char
  rest : Str
  q2 : Char
  deriving DecidableEq, Repr

/-- The literal text of a `d` attribute occurrence. -/
def renderD (a : DAttrChunk) : Str :=
  a.ws :: a.dch :: '=' :: a.q :: ((a.p0 :: a.rest) ++ [a.q2])

/-- What the replace callback leaves for one occurrence: the translated
data re-serialized behind the captured prefix and a `"` quote, or the
original occurrence when the engine fails on it. -/
def shiftedD (tr : Str → Option Str) (a : DAttrChunk) : Str :=
  match tr (a.p0 :: a.rest) with
  | some nd => a.ws :: a.dch :: '=' :: a.q :: (nd ++ ['"'])
  | none => renderD a

/-- Well-formedness of an occurrence: whitespace, `d`/`D`, quotes, a
path-command letter, and no quote characters inside the data. -/
def wfD (a : DAttrChunk) : Bool :=
  isJsWs a.ws && charCI 'd' a.dch && isQuote a.q &&
    pathLetters.contains a.p0 && a.rest.all (fun x => !isQuote x) &&
    isQuote a.q2

/-- No `\s` + `d`/`D` + `=` triple occurs in the string, so no match of the
`d`-attribute regex can start inside it. -/
def noBadTriple : Str → Bool
  | c1 :: c2 :: c3 :: rest =>
    !(isJsWs c1 && charCI 'd' c2 && c3 = '=') && noBadTriple (c2 :: c3 :: rest)
  | _ => true

/-- A document assembled from literal segments and `d` attribute
occurrences, ending in a literal tail. -/
def renderChunks : List (Str × DAttrChunk) → Str → Str
  | [], tail => tail
  | (seg, a) :: rest, tail => seg ++ renderD a ++ renderChunks rest tail

/-- The same document with every occurrence's data shifted (or kept when
the engine fails on it). -/
def renderShifted (tr : Str → Option Str) : List (Str × DAttrChunk) → Str → Str
  | [], tail => tail
  | (seg, a) :: rest, tail => seg ++ shiftedD tr a ++ renderShifted tr rest tail

/-- All segments are match-free and all occurrences well-formed. -/
def wfChunks : List (Str × DAttrChunk) → Bool
  | [] => true
  | (seg, a) :: rest => noBadTriple seg && wfD a && wfChunks rest

/-- A tag whose `transform` attribute (if any) has only trig-free calls. -/
def tagTrigFree (tag : Str) : Bool :=
  match findSpacedAttr ("transform".toList) tag with
  | some t => trigFreeStr t
  | none => true

/-- A concrete trigonometry oracle used to evaluate documents whose
transform lists never reach the trigonometric branches. -/
def trigZero : TrigOracle := ⟨fun _ => 0, fun _ => 0, fun _ => 0⟩

end Svgfix

open Svgfix

/-- The trig-free branches of the transform switch do not depend on the
trigonometry oracle. -/
theorem applyTransformFn_trig_indep (t1 t2 : TrigOracle) (fn : Str)
    (args : List (Option ℚ))
    (h : fn ≠ "rotate".toList ∧ fn ≠ "skewx".toList ∧ fn ≠ "skewy".toList) :
    applyTransformFn t1 fn args = applyTransformFn t2 fn args := by
  unfold applyTransformFn
  simp only [h.1, h.2.1, h.2.2, if_false, ite_false]

/-- Folding the transform calls is oracle-independent when every call is
trig-free. -/
theorem foldCalls_trig_indep (t1 t2 : TrigOracle) (ps : List (Str × Str))
    (acc : Matrix2D) (h : ∀ p ∈ ps, trigFreeCall p = true) :
    ps.foldl (fun acc p => multiplyMatrices acc
        (applyTransformFn t1 p.1 ((jsSplitWsComma p.2).map jsNumber))) acc =
    ps.foldl (fun acc p => multiplyMatrices acc
        (applyTransformFn t2 p.1 ((jsSplitWsComma p.2).map jsNumber))) acc := by
  induction ps generalizing acc with
  | nil => rfl
  | cons p ps ih =>
    have hp := h p (List.mem_cons_self p ps)
    have hp2 : p.1 ≠ "rotate".toList ∧ p.1 ≠ "skewx".toList ∧
        p.1 ≠ "skewy".toList := by
      simpa [trigFreeCall, decide_eq_true_eq, and_assoc] using hp
    simp only [List.foldl_cons]
    rw [applyTransformFn_trig_indep t1 t2 p.1 _ hp2]
    exact ih _ (fun q hq => h q (List.mem_cons_of_mem p hq))

/-- `parseTransformToMatrix` does not depend on the trigonometry oracle on
transform strings without rotate/skew calls. -/
theorem parseTransformToMatrix_trig_indep (t1 t2 : TrigOracle) (s : Str)
    (h : trigFreeStr s = true) :
    parseTransformToMatrix t1 s = parseTransformToMatrix t2 s := by
  unfold parseTransformToMatrix
  exact foldCalls_trig_indep t1 t2 _ _
    (by simpa [trigFreeStr, List.all_eq_true] using h)

/-- C7: 2×3 affine matrix multiplication as implemented by
`multiplyMatrices` is associative, and `IDENTITY_MATRIX` is a two-sided
unit for it. -/
theorem multiplyMatrices_assoc_and_identity :
    (∀ m1 m2 m3 : Matrix2D,
      multiplyMatrices (multiplyMatrices m1 m2) m3 =
        multiplyMatrices m1 (multiplyMatrices m2 m3)) ∧
    (∀ m : Matrix2D, multiplyMatrices IDENTITY_MATRIX m = m) ∧
    (∀ m : Matrix2D, multiplyMatrices m IDENTITY_MATRIX = m) := by
  refine ⟨fun m1 m2 m3 => ?_, fun m => ?_, fun m => ?_⟩ <;>
    ext <;> simp [multiplyMatrices, IDENTITY_MATRIX] <;> ring

/-- C10: the numeric fallback `args[0] || 1` treats a literal `0` scale
factor like a missing argument, so `scale(0)` parses to the identity matrix
(x-scale 1, and the defaulted y-scale follows x), and `scale(0, s)` keeps
`s` on the y axis while the x axis becomes 1 instead of 0. -/
theorem parseTransformToMatrix_scale_zero (trig : TrigOracle) :
    parseTransformToMatrix trig ("scale(0)".toList) = IDENTITY_MATRIX ∧
    (∀ s : ℚ, applyTransformFn trig ("scale".toList) [some 0, some s] =
      ⟨1, 0, 0, s, 0, 0⟩) ∧
    parseTransformToMatrix trig ("scale(0, 7)".toList) = ⟨1, 0, 0, 7, 0, 0⟩ := by
  refine ⟨?_, fun s => rfl, ?_⟩
  · rw [parseTransformToMatrix_trig_indep trig trigZero _ (by decide)]
    with_unfolding_all decide
  · rw [parseTransformToMatrix_trig_indep trig trigZero _ (by decide)]
    with_unfolding_all decide

/-- A scan step is oracle-independent on a tag whose transform attribute is
trig-free. -/
theorem stepTag_trig_indep (t1 t2 : TrigOracle) (st : ScanState) (tag : Str)
    (h : tagTrigFree tag = true) : stepTag t1 st tag = stepTag t2 st tag := by
  have hg : gOpenMatrix t1 tag = gOpenMatrix t2 tag := by
    unfold gOpenMatrix
    cases hA : findSpacedAttr ("transform".toList) tag with
    | none => rfl
    | some v =>
      have hf : trigFreeStr v = true := by
        unfold tagTrigFree at h
        rw [hA] at h
        exact h
      show parseTransformToMatrix t1 v = parseTransformToMatrix t2 v
      exact parseTransformToMatrix_trig_indep t1 t2 v hf
  have hw : ∀ acc, withOwnTransform t1 tag acc = withOwnTransform t2 tag acc := by
    intro acc
    unfold withOwnTransform
    cases hA : findSpacedAttr ("transform".toList) tag with
    | none => rfl
    | some v =>
      have hf : trigFreeStr v = true := by
        unfold tagTrigFree at h
        rw [hA] at h
        exact h
      show multiplyMatrices acc (parseTransformToMatrix t1 v) =
        multiplyMatrices acc (parseTransformToMatrix t2 v)
      rw [parseTransformToMatrix_trig_indep t1 t2 v hf]
  have hgs : gStackUpdate t1 st.transformStack tag =
      gStackUpdate t2 st.transformStack tag := by
    unfold gStackUpdate
    rw [hg]
  have hemit : ∀ ts, tagEmits t1 ts tag = tagEmits t2 ts tag := by
    intro ts
    unfold tagEmits
    simp only [hw]
  unfold stepTag
  simp only [hgs, hemit]

/-- Folding the scanner over trig-free tags is oracle-independent. -/
theorem scanTags_trig_indep (t1 t2 : TrigOracle) (tags : List Str)
    (st : ScanState) (h : ∀ tag ∈ tags, tagTrigFree tag = true) :
    tags.foldl (stepTag t1) st = tags.foldl (stepTag t2) st := by
  induction tags generalizing st with
  | nil => rfl
  | cons tag rest ih =>
    simp only [List.foldl_cons]
    rw [stepTag_trig_indep t1 t2 st tag (h tag (List.mem_cons_self tag rest))]
    exact ih _ (fun q hq => h q (List.mem_cons_of_mem tag hq))

/-- The transform-aware scan is oracle-independent on documents whose
transform attributes are all trig-free. -/
theorem extractWithTransforms_trig_indep (t1 t2 : TrigOracle) (doc : Str)
    (h : (splitTags doc).all tagTrigFree = true) :
    extractVisualPathsWithTransforms t1 doc =
      extractVisualPathsWithTransforms t2 doc := by
  unfold extractVisualPathsWithTransforms
  rw [scanTags_trig_indep t1 t2 (splitTags doc) initScanState
    (by simpa [List.all_eq_true] using h)]

unseal Rat.mul Rat.add Rat.sub Rat.inv Rat.ofScientific in
/-- C8: for a path inside `translate(30,40)` inside `translate(10,20)`, the
scanner's accumulated matrix is `(1,0,0,1,40,60)`: nested translations
compose additively under document-order composition. -/
theorem nested_translates_accumulate (trig : TrigOracle) :
    extractVisualPathsWithTransforms trig
      ("<svg><g transform=\"translate(10, 20)\"><g transform=\"translate(30, 40)\"><path d=\"M 0 0 L 5 5\"/></g></g></svg>".toList) =
    [⟨"M 0 0 L 5 5".toList, ⟨1, 0, 0, 1, 40, 60⟩⟩] := by
  rw [extractWithTransforms_trig_indep trig trigZero _ (by decide)]
  decide

/-- The plain scan step updates the container stack by `nvStackUpdate`. -/
theorem stepPlain_stack (st : PlainScanState) (tag : Str) :
    (stepPlain st tag).stack = nvStackUpdate st.stack tag := by
  unfold stepPlain
  dsimp only
  repeat' split
  all_goals rfl

/-- The plain scan emits nothing on a tag that leaves the container stack
nonempty. -/
theorem stepPlain_no_emit (st : PlainScanState) (tag : Str)
    (h : nvStackUpdate st.stack tag ≠ []) :
    (stepPlain st tag).paths = st.paths := by
  unfold stepPlain
  simp only [if_neg h]

/-- While the container stack stays nonempty, the plain scan collects no
path data at all. -/
theorem scanPlain_no_emit (tags : List Str) (st : PlainScanState)
    (h : nvStaysPlain st tags = true) :
    (tags.foldl stepPlain st).paths = st.paths := by
  induction tags generalizing st with
  | nil => rfl
  | cons tag rest ih =>
    unfold nvStaysPlain at h
    rw [Bool.and_eq_true] at h
    have h1 : nvStackUpdate st.stack tag ≠ [] := by
      have h0 := h.1
      rw [stepPlain_stack] at h0
      simpa [List.isEmpty_iff] using h0
    simp only [List.foldl_cons]
    rw [ih (stepPlain st tag) h.2, stepPlain_no_emit st tag h1]

/-- The transform-aware scan step updates the container stack by
`nvStackUpdate`. -/
theorem stepTag_nvStack (trig : TrigOracle) (st : ScanState) (tag : Str) :
    (stepTag trig st tag).nvStack = nvStackUpdate st.nvStack tag := by
  unfold stepTag
  dsimp only
  repeat' split
  all_goals rfl

/-- The transform-aware scan emits nothing on a tag that leaves the
container stack nonempty. -/
theorem stepTag_no_emit (trig : TrigOracle) (st : ScanState) (tag : Str)
    (h : nvStackUpdate st.nvStack tag ≠ []) :
    (stepTag trig st tag).results = st.results := by
  unfold stepTag
  simp only [if_neg h]

/-- While the container stack stays nonempty, the transform-aware scan
collects no geometry records at all. -/
theorem scanTrans_no_emit (trig : TrigOracle) (tags : List Str)
    (st : ScanState) (h : nvStaysScan trig st tags = true) :
    (tags.foldl (stepTag trig) st).results = st.results := by
  induction tags generalizing st with
  | nil => rfl
  | cons tag rest ih =>
    unfold nvStaysScan at h
    rw [Bool.and_eq_true] at h
    have h1 : nvStackUpdate st.nvStack tag ≠ [] := by
      have h0 := h.1
      rw [stepTag_nvStack] at h0
      simpa [List.isEmpty_iff] using h0
    simp only [List.foldl_cons]
    rw [ih (stepTag trig st tag) h.2, stepTag_no_emit trig st tag h1]

/-- C4 (amended): for every document whose tag sequence splits as
`pre ++ mid ++ post` such that the reserved-container stack (reserved set
`defs`, `mask`, `filter`, `symbol`, `pattern`) is nonempty after every tag
of `mid`, both scanners collect no geometry from `mid`: drawables nested at
any depth inside a reserved container are excluded from the scan output and
hence from the bounds computation.  (The code's reserved set does not
contain `clipPath`.) -/
theorem reserved_container_exclusion (trig : TrigOracle) (doc : Str)
    (pre mid post : List Str)
    (hsplit : splitTags doc = pre ++ (mid ++ post))
    (hplain : nvStaysPlain (pre.foldl stepPlain ⟨[], []⟩) mid = true)
    (hscan : nvStaysScan trig (pre.foldl (stepTag trig) initScanState) mid = true) :
    ((pre ++ mid).foldl stepPlain ⟨[], []⟩).paths =
      (pre.foldl stepPlain ⟨[], []⟩).paths ∧
    ((pre ++ mid).foldl (stepTag trig) initScanState).results =
      (pre.foldl (stepTag trig) initScanState).results ∧
    extractVisualPaths doc =
      (post.foldl stepPlain ((pre ++ mid).foldl stepPlain ⟨[], []⟩)).paths ∧
    extractVisualPathsWithTransforms trig doc =
      (post.foldl (stepTag trig) ((pre ++ mid).foldl (stepTag trig) initScanState)).results := by
  refine ⟨?_, ?_, ?_, ?_⟩
  · rw [List.foldl_append]
    exact scanPlain_no_emit mid _ hplain
  · rw [List.foldl_append]
    exact scanTrans_no_emit trig mid _ hscan
  · unfold extractVisualPaths
    rw [hsplit, List.foldl_append, List.foldl_append, List.foldl_append]
  · unfold extractVisualPathsWithTransforms
    rw [hsplit, List.foldl_append, List.foldl_append, List.foldl_append]

/-- Witness for C4's theorem: a path nested two levels deep
(`defs` > `mask`) is excluded; the sibling path outside is kept. -/
theorem reserved_container_exclusion_witness :
    ((["<svg>".toList] ++
        ["<defs>".toList, "<mask>".toList,
         "<path d=\"M 1 1 L 2 2\"/>".toList,
         "</mask>".toList]).foldl stepPlain ⟨[], []⟩).paths =
      (["<svg>".toList].foldl stepPlain ⟨[], []⟩).paths ∧
    extractVisualPaths
      ("<svg><defs><mask><path d=\"M 1 1 L 2 2\"/></mask></defs><path d=\"M 3 3 L 4 4\"/></svg>".toList) =
      ["M 3 3 L 4 4".toList] := by
  have h := reserved_container_exclusion trigZero
    ("<svg><defs><mask><path d=\"M 1 1 L 2 2\"/></mask></defs><path d=\"M 3 3 L 4 4\"/></svg>".toList)
    ["<svg>".toList]
    ["<defs>".toList, "<mask>".toList, "<path d=\"M 1 1 L 2 2\"/>".toList,
     "</mask>".toList]
    ["</defs>".toList, "<path d=\"M 3 3 L 4 4\"/>".toList, "</svg>".toList]
    (by decide) (by decide) (by decide)
  refine ⟨h.1, ?_⟩
  rw [h.2.2.1]
  decide

/-- C4 counterexample: `clipPath` is not in the code's reserved set, so a
drawable nested inside a bare `<clipPath>` (not wrapped in `defs`, `mask`,
`filter`, `symbol` or `pattern`) is collected by the scan, contradicting
the claim that the reserved set covers clipPath. -/
theorem clipPath_not_reserved_counterexample :
    extractVisualPaths
      ("<svg><clipPath><path d=\"M 0 0 L 9 9\"/></clipPath></svg>".toList) =
      ["M 0 0 L 9 9".toList] ∧
    ("clipPath".toList ∈ nonVisualTags → False) := by
  exact ⟨by decide, by decide⟩

/-- Inversion of a successful case-insensitive prefix match. -/
theorem matchCI_some_shape (p : Char) (ps s r : Str)
    (h : matchCI (p :: ps) s = some r) :
    ∃ c cs, s = c :: cs ∧ charCI p c = true ∧ matchCI ps cs = some r := by
  cases s with
  | nil => simp [matchCI] at h
  | cons c cs =>
    by_cases hc : charCI p c = true
    · exact ⟨c, cs, rfl, hc, by simpa [matchCI, hc] using h⟩
    · rw [Bool.not_eq_true] at hc
      simp [matchCI, hc] at h

/-- An image open tag starts with `<` and an `i`/`I`. -/
theorem imageTag_head (tag : Str)
    (himg : testOpenTagCI ("image".toList) tag = true) :
    ∃ c1 rest, tag = '<' :: c1 :: rest ∧ (c1 = 'i' ∨ c1 = 'I') := by
  unfold testOpenTagCI at himg
  cases hm : matchCI ('<' :: "image".toList) tag with
  | none => rw [hm] at himg; simp at himg
  | some r =>
    obtain ⟨c0, cs0, h0, hc0, hm1⟩ := matchCI_some_shape _ _ _ _ hm
    obtain ⟨c1, cs1, h1, hc1, _⟩ := matchCI_some_shape _ _ _ _ hm1
    have hc0e : c0 = '<' := by
      have h2 : c0 = '<' ∨ c0 = upChar '<' := by
        simpa [charCI, Bool.or_eq_true, decide_eq_true_eq] using hc0
      simpa [show upChar '<' = '<' from by decide] using h2
    refine ⟨c1, cs1, by rw [h0, h1, hc0e], ?_⟩
    have : c1 = 'i' ∨ c1 = upChar 'i' := by
      simpa [charCI, Bool.or_eq_true, decide_eq_true_eq] using hc1
    simpa [show upChar 'i' = 'I' from by decide] using this

/-- A close-tag test never fires on a tag whose second character is `i`/`I`. -/
theorem testCloseTagCI_false_of_i (name : Str) (c1 : Char) (rest : Str)
    (hc1 : c1 = 'i' ∨ c1 = 'I') :
    testCloseTagCI name ('<' :: c1 :: rest) = false := by
  rcases hc1 with rfl | rfl <;>
    simp [testCloseTagCI, matchCI, charCI, show upChar '/' = '/' from by decide]

/-- The reserved-container pop never fires on an empty stack. -/
theorem nvCloseName_nil (tag : Str) : nvCloseName [] tag = none := by
  simp [nvCloseName, nonVisualTags, List.find?]

/-- C9: a raster-image tag scanned outside the non-visual containers leaves
both stacks unchanged and contributes exactly one synthetic rectangle path
record `M{x} {y}h{w}v{h}h{-w}z` with the accumulated transform when its
width and height parse to positive numbers, and nothing at all when either
is missing (defaulted to 0), non-positive, or unparseable (NaN). -/
theorem image_tag_contribution (trig : TrigOracle) (st : ScanState)
    (tag : Str) (himg : testOpenTagCI ("image".toList) tag = true)
    (hnv : st.nvStack = []) :
    (stepTag trig st tag).results =
      st.results ++
        (if posNum (jsParseFloat (imageAttrRaw ("width".toList) tag)) &&
            posNum (jsParseFloat (imageAttrRaw ("height".toList) tag)) then
          [⟨imagePathD (jsParseFloat (imageAttrRaw ("x".toList) tag))
              (jsParseFloat (imageAttrRaw ("y".toList) tag))
              (jsParseFloat (imageAttrRaw ("width".toList) tag))
              (jsParseFloat (imageAttrRaw ("height".toList) tag)),
            withOwnTransform trig tag (accumMatrix st.transformStack)⟩]
        else []) ∧
    (stepTag trig st tag).nvStack = [] ∧
    (stepTag trig st tag).transformStack = st.transformStack := by
  obtain ⟨c1, rest, htag, hc1⟩ := imageTag_head tag himg
  have hgopen : testOpenTagCI ("g".toList) tag = false := by
    rw [htag]
    rcases hc1 with rfl | rfl <;>
      simp [testOpenTagCI, matchCI, charCI, show upChar 'g' = 'G' from by decide]
  have hgclose : testCloseTagCI ("g".toList) tag = false := by
    rw [htag]; exact testCloseTagCI_false_of_i _ _ _ hc1
  have hpath : testOpenTagCI ("path".toList) tag = false := by
    rw [htag]
    rcases hc1 with rfl | rfl <;>
      simp [testOpenTagCI, matchCI, charCI, show upChar 'p' = 'P' from by decide]
  have hnvopen : nvOpenName tag = none := by
    rw [htag]
    rcases hc1 with rfl | rfl <;>
      simp [nvOpenName, nonVisualTags, List.find?, testOpenTagCI, matchCI,
        charCI, show upChar 'd' = 'D' from by decide,
        show upChar 'm' = 'M' from by decide,
        show upChar 'f' = 'F' from by decide,
        show upChar 's' = 'S' from by decide,
        show upChar 'p' = 'P' from by decide]
  have hgstack : gStackUpdate trig st.transformStack tag = st.transformStack := by
    unfold gStackUpdate
    rw [hgopen, hgclose]
    simp
  have hnvup : nvStackUpdate st.nvStack tag = [] := by
    simp [nvStackUpdate, hnv, hnvopen, nvCloseName_nil]
  have hemits : tagEmits trig st.transformStack tag =
      (if posNum (jsParseFloat (imageAttrRaw ("width".toList) tag)) &&
          posNum (jsParseFloat (imageAttrRaw ("height".toList) tag)) then
        [⟨imagePathD (jsParseFloat (imageAttrRaw ("x".toList) tag))
            (jsParseFloat (imageAttrRaw ("y".toList) tag))
            (jsParseFloat (imageAttrRaw ("width".toList) tag))
            (jsParseFloat (imageAttrRaw ("height".toList) tag)),
          withOwnTransform trig tag (accumMatrix st.transformStack)⟩]
      else []) := by
    unfold tagEmits
    cases hd : findDAttr tag <;>
      simp only [hd, hpath, himg, Bool.false_eq_true, eq_self_iff_true,
        if_false, if_true, List.nil_append]
  unfold stepTag
  simp only [hgstack, hnvup, if_pos rfl, hemits]
  exact ⟨rfl, rfl, rfl⟩

unseal Rat.mul Rat.add Rat.sub Rat.inv Rat.ofScientific in
/-- Witness for C9: a positive-size image yields exactly the synthetic
rectangle record; a zero-width image yields nothing. -/
theorem image_tag_contribution_witness :
    (stepTag trigZero initScanState
        ("<image x=\"3\" y=\"4\" width=\"10\" height=\"20\"/>".toList)).results =
      [⟨"M3 4h10v20h-10z".toList, IDENTITY_MATRIX⟩] ∧
    (stepTag trigZero initScanState
        ("<image width=\"0\" height=\"20\"/>".toList)).results = [] := by
  constructor
  · rw [(image_tag_contribution trigZero initScanState
      ("<image x=\"3\" y=\"4\" width=\"10\" height=\"20\"/>".toList)
      (by decide) rfl).1]
    decide
  · rw [(image_tag_contribution trigZero initScanState
      ("<image width=\"0\" height=\"20\"/>".toList)
      (by decide) rfl).1]
    decide

unseal Rat.mul Rat.add Rat.sub Rat.inv Rat.ofScientific in
/-- C1: the bounds computation takes a record's local bounds directly when
its matrix is the identity and otherwise the enclosing box of the four
matrix-mapped corners, unioning component-wise; in particular the scanner
turns `M10,10 L20,20` under a `scale(2)` group into a record with matrix
`(2,0,0,2,0,0)`, whose computed bounds are (20,20)-(40,40). -/
theorem computeBounds_corner_mapping (lb : Str → Option LocalBounds)
    (r : PathRecord) (b : LocalBounds) (h : lb r.d = some b) :
    recordBounds lb r =
      some (if r.matrix = IDENTITY_MATRIX then b else cornerBox r.matrix b) ∧
    computeBounds lb [r] =
      .ok (if r.matrix = IDENTITY_MATRIX then b else cornerBox r.matrix b) ∧
    (∀ trig : TrigOracle, extractVisualPathsWithTransforms trig
        ("<svg><g transform=\"scale(2)\"><path d=\"M10,10 L20,20\"/></g></svg>".toList) =
      [⟨"M10,10 L20,20".toList, ⟨2, 0, 0, 2, 0, 0⟩⟩]) ∧
    computeBounds lbScaleExample
        [⟨"M10,10 L20,20".toList, ⟨2, 0, 0, 2, 0, 0⟩⟩] =
      .ok ⟨20, 20, 40, 40⟩ := by
  have hrec : recordBounds lb r =
      some (if r.matrix = IDENTITY_MATRIX then b else cornerBox r.matrix b) := by
    unfold recordBounds
    rw [h]
  refine ⟨hrec, ?_, ?_, ?_⟩
  · unfold computeBounds
    rw [if_neg (by simp)]
    simp only [List.foldl_cons, List.foldl_nil, hrec]
  · intro trig
    rw [extractWithTransforms_trig_indep trig trigZero _ (by decide)]
    decide
  · decide

unseal Rat.mul Rat.add Rat.sub Rat.inv Rat.ofScientific in
/-- Witness for C1: the worked example evaluated end-to-end. -/
theorem computeBounds_corner_mapping_witness :
    computeBounds lbScaleExample
        [⟨"M10,10 L20,20".toList, ⟨2, 0, 0, 2, 0, 0⟩⟩] =
      .ok ⟨20, 20, 40, 40⟩ ∧
    extractVisualPathsWithTransforms trigZero
        ("<svg><g transform=\"scale(2)\"><path d=\"M10,10 L20,20\"/></g></svg>".toList) =
      [⟨"M10,10 L20,20".toList, ⟨2, 0, 0, 2, 0, 0⟩⟩] := by
  have h := computeBounds_corner_mapping lbScaleExample
    ⟨"M10,10 L20,20".toList, ⟨2, 0, 0, 2, 0, 0⟩⟩ ⟨10, 10, 20, 20⟩ (by decide)
  exact ⟨h.2.2.2, h.2.2.1 trigZero⟩

/-- A successful parse keeps the input as `originalSvg`. -/
theorem parseSvg_ok_originalSvg (s : Str) (parsed : ParsedSvg)
    (h : parseSvg s = .ok parsed) : parsed.originalSvg = s := by
  unfold parseSvg at h
  split at h
  · exact Except.noConfusion h
  · split at h
    · exact Except.noConfusion h
    · injection h with h2
      rw [← h2]

/-- C6: a well-formed document whose scan yields no drawable geometry makes
the pipeline short-circuit: success, the input returned unchanged, no
errors, and the nothing-to-process warning. -/
theorem zero_geometry_short_circuit (bb : Str → Option EngineBBox)
    (tr : Str → ℚ → ℚ → Option Str) (opt : Str → Except Str Str)
    (fmt : Str → Bool → Except Str Str) (opts : ProcessingOptions) (s : Str)
    (parsed : ParsedSvg) (h1 : parseSvg s = .ok parsed)
    (h2 : parsed.paths = []) :
    processSvg bb tr opt fmt opts s =
      ⟨s, true, [], ["No paths found in SVG - nothing to process".toList],
       ⟨s.length, s.length, parsed.viewBox,
        parsed.viewBox.getD ⟨0, 0, 0, 0⟩⟩⟩ := by
  have ho := parseSvg_ok_originalSvg s parsed h1
  unfold processSvg
  rw [h1]
  simp only [ho, h2, if_pos]

unseal Rat.mul Rat.add Rat.sub Rat.inv Rat.ofScientific in
/-- Witness for C6: a viewBox-only document with no paths. -/
theorem zero_geometry_short_circuit_witness :
    processSvg bbUnitBox trFailAll optIdentity fmtIdentity DEFAULT_OPTIONS
        ("<svg viewBox=\"0 0 100 100\"></svg>".toList) =
      ⟨"<svg viewBox=\"0 0 100 100\"></svg>".toList, true, [],
       ["No paths found in SVG - nothing to process".toList],
       ⟨33, 33, some ⟨0, 0, 100, 100⟩, ⟨0, 0, 100, 100⟩⟩⟩ := by
  rw [zero_geometry_short_circuit bbUnitBox trFailAll optIdentity fmtIdentity
    DEFAULT_OPTIONS ("<svg viewBox=\"0 0 100 100\"></svg>".toList)
    ⟨"<svg viewBox=\"0 0 100 100\"></svg>".toList, some ⟨0, 0, 100, 100⟩,
     none, none, [], "<svg viewBox=\"0 0 100 100\"></svg>".toList⟩
    (by decide) (by decide)]
  decide

/-- C5: the pipeline is a total function of its input (it never throws —
failure is communicated through the report): a parse failure or a bounds
failure yields `success = false`, a nonempty error list and the original
input as the output document; once bounds exist the run always ends with
`success = true` and an empty error list, later stage failures only adding
warnings. -/
theorem process_error_policy (bb : Str → Option EngineBBox)
    (tr : Str → ℚ → ℚ → Option Str) (opt : Str → Except Str Str)
    (fmt : Str → Bool → Except Str Str) (opts : ProcessingOptions) (s : Str) :
    (∀ e, parseSvg s = .error e →
      (processSvg bb tr opt fmt opts s).svg = s ∧
      (processSvg bb tr opt fmt opts s).success = false ∧
      (processSvg bb tr opt fmt opts s).errors ≠ []) ∧
    (∀ parsed e, parseSvg s = .ok parsed → parsed.paths ≠ [] →
      getContentBounds bb parsed.paths = .error e →
      (processSvg bb tr opt fmt opts s).svg = s ∧
      (processSvg bb tr opt fmt opts s).success = false ∧
      (processSvg bb tr opt fmt opts s).errors ≠ []) ∧
    (∀ parsed, parseSvg s = .ok parsed →
      (parsed.paths = [] ∨ ∃ b, getContentBounds bb parsed.paths = .ok b) →
      (processSvg bb tr opt fmt opts s).success = true ∧
      (processSvg bb tr opt fmt opts s).errors = []) := by
  refine ⟨?_, ?_, ?_⟩
  · intro e h
    unfold processSvg
    rw [h]
    exact ⟨rfl, rfl, by simp⟩
  · intro parsed e h1 hp h2
    have ho := parseSvg_ok_originalSvg s parsed h1
    unfold processSvg
    rw [h1]
    simp only [ho, if_neg hp, h2]
    simp
  · intro parsed h1 hcase
    unfold processSvg
    rw [h1]
    by_cases hp : parsed.paths = []
    · simp only [hp, if_pos]
      simp
    · rcases hcase with hpe | ⟨b, hb⟩
      · exact absurd hpe hp
      · simp only [if_neg hp, hb]
        simp

unseal Rat.mul Rat.add Rat.sub Rat.inv Rat.ofScientific in
/-- Witness for C5: a non-svg input fails with the original returned; a
path document with an all-failing engine fails bounds the same way; with a
working engine the run succeeds with no errors. -/
theorem process_error_policy_witness :
    ((processSvg bbUnitBox trFailAll optIdentity fmtIdentity DEFAULT_OPTIONS
        ("not an svg".toList)).svg = "not an svg".toList ∧
      (processSvg bbUnitBox trFailAll optIdentity fmtIdentity DEFAULT_OPTIONS
        ("not an svg".toList)).success = false ∧
      (processSvg bbUnitBox trFailAll optIdentity fmtIdentity DEFAULT_OPTIONS
        ("not an svg".toList)).errors ≠ []) ∧
    ((processSvg bbFailAll trFailAll optIdentity fmtIdentity DEFAULT_OPTIONS
        ("<svg><path d=\"M 0 0\"/></svg>".toList)).success = false ∧
      (processSvg bbFailAll trFailAll optIdentity fmtIdentity DEFAULT_OPTIONS
        ("<svg><path d=\"M 0 0\"/></svg>".toList)).svg =
        "<svg><path d=\"M 0 0\"/></svg>".toList) ∧
    ((processSvg bbUnitBox trFailAll optIdentity fmtIdentity DEFAULT_OPTIONS
        ("<svg><path d=\"M 0 0\"/></svg>".toList)).success = true ∧
      (processSvg bbUnitBox trFailAll optIdentity fmtIdentity DEFAULT_OPTIONS
        ("<svg><path d=\"M 0 0\"/></svg>".toList)).errors = []) := by
  refine ⟨?_, ?_, ?_⟩
  · exact (process_error_policy bbUnitBox trFailAll optIdentity fmtIdentity
      DEFAULT_OPTIONS ("not an svg".toList)).1
      ("No <svg> element found in input string".toList) (by decide)
  · have h := (process_error_policy bbFailAll trFailAll optIdentity fmtIdentity
      DEFAULT_OPTIONS ("<svg><path d=\"M 0 0\"/></svg>".toList)).2.1
      ⟨"<svg><path d=\"M 0 0\"/></svg>".toList, none, none, none,
       ["M 0 0".toList], "<svg><path d=\"M 0 0\"/></svg>".toList⟩
      ("failed to calculate bounds for any paths".toList)
      (by decide) (by decide) (by decide)
    exact ⟨h.2.1, h.1⟩
  · exact (process_error_policy bbUnitBox trFailAll optIdentity fmtIdentity
      DEFAULT_OPTIONS ("<svg><path d=\"M 0 0\"/></svg>".toList)).2.2
      ⟨"<svg><path d=\"M 0 0\"/></svg>".toList, none, none, none,
       ["M 0 0".toList], "<svg><path d=\"M 0 0\"/></svg>".toList⟩
      (by decide) (Or.inr ⟨⟨0, 0, 1, 1, 1, 1⟩, by decide⟩)

/-- A case-insensitive prefix match consumes exactly the pattern length. -/
theorem matchCI_length (ps s r : Str) (h : matchCI ps s = some r) :
    s.length = ps.length + r.length := by
  induction ps generalizing s with
  | nil => simp only [matchCI, Option.some.injEq] at h; simp [← h]
  | cons p ps ih =>
    cases s with
    | nil => exact Option.noConfusion h
    | cons c cs =>
      unfold matchCI at h
      by_cases hc : charCI p c = true
      · rw [if_pos hc] at h
        have := ih cs h
        simp [this]
        omega
      · rw [Bool.not_eq_true] at hc
        simp [hc] at h

/-- The svg-open-tag end index never exceeds the string length. -/
theorem findSvgOpenEnd_le (s : Str) : ∀ n, findSvgOpenEnd s = some n →
    n ≤ s.length := by
  induction s with
  | nil => intro n h; exact Option.noConfusion h
  | cons c cs ih =>
    intro n h
    unfold findSvgOpenEnd at h
    split at h
    · rename_i r hm
      split at h
      · rename_i tail hdrop
        have hlen := matchCI_length _ _ _ hm
        have htd : (r.takeWhile (· ≠ '>')).length +
            (r.dropWhile (· ≠ '>')).length = r.length := by
          rw [← List.length_append, List.takeWhile_append_dropWhile]
        rw [hdrop, List.length_cons] at htd
        rw [show ("<svg".toList : Str).length = 4 from rfl,
          List.length_cons] at hlen
        have hn : n = 4 + (r.takeWhile (· ≠ '>')).length + 1 :=
          (Option.some.inj h).symm
        rw [List.length_cons]
        omega
      · cases hrec : findSvgOpenEnd cs with
        | none => rw [hrec] at h; exact Option.noConfusion h
        | some n2 =>
          rw [hrec] at h
          simp at h
          have := ih n2 hrec
          simp [← h]
          omega
    · cases hrec : findSvgOpenEnd cs with
      | none => rw [hrec] at h; exact Option.noConfusion h
      | some n2 =>
        rw [hrec] at h
        simp at h
        have := ih n2 hrec
        simp [← h]
        omega

/-- The last `</svg>` index never exceeds the string length. -/
theorem lastIndexOfCloseSvg_le (s : Str) : ∀ k,
    lastIndexOfCloseSvg s = some k → k ≤ s.length := by
  induction s with
  | nil => intro k h; exact Option.noConfusion h
  | cons c cs ih =>
    intro k h
    unfold lastIndexOfCloseSvg at h
    cases hrec : lastIndexOfCloseSvg cs with
    | some k2 =>
      rw [hrec] at h
      simp at h
      have := ih k2 hrec
      simp [← h]
      omega
    | none =>
      rw [hrec] at h
      simp at h
      obtain ⟨_, hk⟩ := h
      omega

/-- C2: on a document containing a transformed group and a nonzero target
offset, `transformPathsToOrigin` rewrites the document as: everything up to
the end of the root opening tag, then one new group open tag
`<g transform="translate(dx, dy)">` with `dx = -offset.x`,
`dy = -offset.y`, then the original content between the root tags
byte-for-byte unchanged (so no path's `d` data is altered), then `</g>`,
then the original tail from the closing root tag on. -/
theorem wrapper_group_strategy (tr : Str → ℚ → ℚ → Option Str) (s : Str)
    (vb : ViewBox) (hgt : hasGroupTransforms s = true)
    (hoff : ¬(vb.minX = 0 ∧ vb.minY = 0)) (n k : Nat)
    (hopen : findSvgOpenEnd s = some n)
    (hclose : lastIndexOfCloseSvg s = some k) (hnk : n ≤ k) :
    transformPathsToOrigin tr s vb =
      s.take n ++
      ("<g transform=\"translate(".toList ++ ratToJsStr (-vb.minX) ++
        ", ".toList ++ ratToJsStr (-vb.minY) ++ ")\">".toList) ++
      ((s.take k).drop n) ++ "</g>".toList ++ s.drop k := by
  have hn := findSvgOpenEnd_le s n hopen
  have hk := lastIndexOfCloseSvg_le s k hclose
  unfold transformPathsToOrigin
  rw [if_neg hoff, if_pos hgt]
  unfold wrapWithTranslate
  rw [hopen, hclose]
  unfold jsSubstring
  dsimp only
  rw [Nat.min_eq_left hn, Nat.min_eq_left hk, Nat.max_eq_right hnk,
    Nat.min_eq_left hnk]

unseal Rat.mul Rat.add Rat.sub Rat.inv Rat.ofScientific in
/-- Witness for C2: a translated group document wrapped for offset
(50, 50). -/
theorem wrapper_group_strategy_witness :
    transformPathsToOrigin trFailAll
      ("<svg><g transform=\"translate(5,5)\"><path d=\"M 0 0\"/></g></svg>".toList)
      ⟨50, 50, 100, 100⟩ =
    ("<svg><g transform=\"translate(-50, -50)\"><g transform=\"translate(5,5)\"><path d=\"M 0 0\"/></g></g></svg>".toList) := by
  rw [wrapper_group_strategy trFailAll
    ("<svg><g transform=\"translate(5,5)\"><path d=\"M 0 0\"/></g></svg>".toList)
    ⟨50, 50, 100, 100⟩ (by decide) (by decide) 5 56 (by decide) (by decide)
    (by decide)]
  decide

/-- Whitespace characters are not `d`/`D`. -/
theorem isJsWs_not_d (x : Char) (h : isJsWs x = true) : charCI 'd' x = false := by
  have h2 : ((((x = ' ' ∨ x = '\t') ∨ x = '\n') ∨ x = '\r') ∨ x = '\x0b') ∨ x = '\x0c' := by
    simpa [isJsWs] using h
  rcases h2 with ((((rfl | rfl) | rfl) | rfl) | rfl) | rfl <;> decide

/-- Whitespace characters are not `=`. -/
theorem isJsWs_not_eq (x : Char) (h : isJsWs x = true) : x ≠ '=' := by
  have h2 : ((((x = ' ' ∨ x = '\t') ∨ x = '\n') ∨ x = '\r') ∨ x = '\x0b') ∨ x = '\x0c' := by
    simpa [isJsWs] using h
  rcases h2 with ((((rfl | rfl) | rfl) | rfl) | rfl) | rfl <;> decide

/-- Without a leading whitespace-`d`-`=` triple the regex cannot match. -/
theorem tryDMatchFull_none (c1 c2 c3 : Char) (rest : Str)
    (h : ¬(isJsWs c1 = true ∧ charCI 'd' c2 = true ∧ c3 = '=')) :
    tryDMatchFull (c1 :: c2 :: c3 :: rest) = none := by
  rcases rest with _ | ⟨x4, _ | ⟨x5, r⟩⟩
  · rfl
  · rfl
  · show (if (isJsWs c1 && charCI 'd' c2 && decide (c3 = '=') && isQuote x4 &&
        pathLetters.contains x5) = true then
      match r.dropWhile (fun x => !isQuote x) with
      | q2 :: after =>
        some ([c1, c2, c3, x4], x5 :: r.takeWhile (fun x => !isQuote x), q2, after)
      | [] => none
    else none) = none
    rw [if_neg]
    intro hc
    simp only [Bool.and_eq_true, decide_eq_true_eq] at hc
    exact h ⟨hc.1.1.1.1, hc.1.1.1.2, hc.1.1.2⟩

/-- `noBadTriple` is closed under taking the tail. -/
theorem noBadTriple_tail (c : Char) (l : Str)
    (h : noBadTriple (c :: l) = true) : noBadTriple l = true := by
  rcases l with _ | ⟨c2, _ | ⟨c3, r⟩⟩
  · rfl
  · rfl
  · unfold noBadTriple at h
    rw [Bool.and_eq_true] at h
    exact h.2

/-- No match starts inside a triple-free segment followed by nothing or by
whitespace, so the replace scan copies the segment verbatim. -/
theorem replaceDs_skip_seg (tr : Str → Option Str) (seg rest : Str)
    (hseg : noBadTriple seg = true)
    (hrest : rest = [] ∨ ∃ w r2, rest = w :: r2 ∧ isJsWs w = true) :
    replaceDs tr (seg ++ rest) = seg ++ replaceDs tr rest := by
  induction seg with
  | nil => simp
  | cons c seg2 ih =>
    have hnone : tryDMatchFull (c :: (seg2 ++ rest)) = none := by
      rcases seg2 with _ | ⟨c2, _ | ⟨c3, seg4⟩⟩
      · rcases hrest with rfl | ⟨w, r2, rfl, hw⟩
        · rfl
        · rcases r2 with _ | ⟨x3, r3⟩
          · rfl
          · exact tryDMatchFull_none c w x3 r3
              (fun hc => by
                have hf := isJsWs_not_d w hw
                rw [hc.2.1] at hf
                exact Bool.noConfusion hf)
      · rcases hrest with rfl | ⟨w, r2, rfl, hw⟩
        · rfl
        · exact tryDMatchFull_none c c2 w r2
            (fun hc => isJsWs_not_eq w hw hc.2.2)
      · have hhead : ¬(isJsWs c = true ∧ charCI 'd' c2 = true ∧ c3 = '=') := by
          intro hc
          unfold noBadTriple at hseg
          rw [Bool.and_eq_true] at hseg
          have h1 := hseg.1
          rw [hc.2.2] at h1
          simp [hc.1, hc.2.1] at h1
        exact tryDMatchFull_none c c2 c3 (seg4 ++ rest) hhead
    rw [List.cons_append, replaceDs, hnone]
    rw [ih (noBadTriple_tail c seg2 hseg)]
    rfl

/-- `dropWhile` skips a block on which the predicate holds everywhere. -/
theorem dropWhile_append_of_all (p : Char → Bool) (l1 l2 : Str)
    (h : l1.all p = true) : (l1 ++ l2).dropWhile p = l2.dropWhile p := by
  induction l1 with
  | nil => rfl
  | cons c cs ih =>
    rw [List.all_cons, Bool.and_eq_true] at h
    simp [List.dropWhile, h.1, ih h.2]

/-- `takeWhile` keeps a block on which the predicate holds everywhere. -/
theorem takeWhile_append_of_all (p : Char → Bool) (l1 l2 : Str)
    (h : l1.all p = true) : (l1 ++ l2).takeWhile p = l1 ++ l2.takeWhile p := by
  induction l1 with
  | nil => rfl
  | cons c cs ih =>
    rw [List.all_cons, Bool.and_eq_true] at h
    simp [List.takeWhile, h.1, ih h.2]

/-- A well-formed occurrence is matched exactly, and the scan resumes right
after it. -/
theorem replaceDs_match (tr : Str → Option Str) (a : DAttrChunk) (rest : Str)
    (hwf : wfD a = true) :
    replaceDs tr (renderD a ++ rest) = shiftedD tr a ++ replaceDs tr rest := by
  have hw : isJsWs a.ws = true ∧ charCI 'd' a.dch = true ∧ isQuote a.q = true ∧
      pathLetters.contains a.p0 = true ∧
      a.rest.all (fun x => !isQuote x) = true ∧ isQuote a.q2 = true := by
    simpa [wfD, and_assoc] using hwf
  have hq2 : (!isQuote a.q2) = false := by
    simp [hw.2.2.2.2.2]
  have hdrop : (a.rest ++ a.q2 :: rest).dropWhile (fun x => !isQuote x) =
      a.q2 :: rest := by
    rw [dropWhile_append_of_all _ _ _ hw.2.2.2.2.1]
    unfold List.dropWhile
    rw [hq2]
  have htake : (a.rest ++ a.q2 :: rest).takeWhile (fun x => !isQuote x) =
      a.rest := by
    rw [takeWhile_append_of_all _ _ _ hw.2.2.2.2.1]
    unfold List.takeWhile
    rw [hq2]
    simp
  have hshape : renderD a ++ rest =
      a.ws :: a.dch :: '=' :: a.q :: a.p0 :: (a.rest ++ a.q2 :: rest) := by
    unfold renderD
    simp
  have hmatch : tryDMatchFull
      (a.ws :: a.dch :: '=' :: a.q :: a.p0 :: (a.rest ++ a.q2 :: rest)) =
      some ([a.ws, a.dch, '=', a.q], a.p0 :: a.rest, a.q2, rest) := by
    simp only [tryDMatchFull]
    rw [if_pos (by
      simp only [Bool.and_eq_true, decide_eq_true_eq]
      exact ⟨⟨⟨⟨hw.1, hw.2.1⟩, trivial⟩, hw.2.2.1⟩, hw.2.2.2.1⟩)]
    rw [hdrop, htake]
  rw [hshape, replaceDs, hmatch]
  dsimp only
  unfold shiftedD
  cases htr : tr (a.p0 :: a.rest) with
  | some nd => simp
  | none => simp [renderD]

/-- The global replace processes exactly the `d` attribute occurrences of a
chunked document: every occurrence is shifted (or kept on engine failure),
all other text is copied verbatim. -/
theorem replaceDs_chunks (tr : Str → Option Str)
    (chunks : List (Str × DAttrChunk)) (tail : Str)
    (hw : wfChunks chunks = true) (ht : noBadTriple tail = true) :
    replaceDs tr (renderChunks chunks tail) = renderShifted tr chunks tail := by
  induction chunks with
  | nil =>
    have h := replaceDs_skip_seg tr tail [] ht (Or.inl rfl)
    simpa [renderChunks, renderShifted, replaceDs] using h
  | cons p rest ih =>
    obtain ⟨seg, a⟩ := p
    unfold wfChunks at hw
    rw [Bool.and_eq_true, Bool.and_eq_true] at hw
    have hseg := hw.1.1
    have hwfd := hw.1.2
    have hrest := hw.2
    have hws : isJsWs a.ws = true := by
      have := hwfd
      unfold wfD at this
      repeat rw [Bool.and_eq_true] at this
      exact this.1.1.1.1.1
    unfold renderChunks renderShifted
    rw [List.append_assoc, replaceDs_skip_seg tr seg _ hseg
      (Or.inr ⟨a.ws, a.dch :: '=' :: a.q :: ((a.p0 :: a.rest) ++ [a.q2]) ++
        renderChunks rest tail, by simp [renderD], hws⟩)]
    rw [show renderD a ++ renderChunks rest tail =
      a.ws :: (a.dch :: '=' :: a.q :: ((a.p0 :: a.rest) ++ [a.q2]) ++
        renderChunks rest tail) from by simp [renderD]] at *
    rw [← show renderD a ++ renderChunks rest tail =
      a.ws :: (a.dch :: '=' :: a.q :: ((a.p0 :: a.rest) ++ [a.q2]) ++
        renderChunks rest tail) from by simp [renderD]]
    rw [replaceDs_match tr a _ hwfd, ih hrest]
    simp [List.append_assoc]

/-- C3: on a document with no transformed group and a nonzero offset, the
normalizer takes the direct-shift strategy: it hands every path `d`
occurrence — wherever it sits, including inside non-visual containers — to
the external translate operation with `(-offset.x, -offset.y)`, re-writes
each successful result in place, keeps exactly the failing occurrences
unchanged, copies all other text verbatim, introduces no wrapping group,
and always returns (it is a total function). -/
theorem direct_shift_strategy (tr : Str → ℚ → ℚ → Option Str) (vb : ViewBox)
    (chunks : List (Str × DAttrChunk)) (tail : Str)
    (hng : hasGroupTransforms (renderChunks chunks tail) = false)
    (hoff : ¬(vb.minX = 0 ∧ vb.minY = 0))
    (hw : wfChunks chunks = true) (ht : noBadTriple tail = true) :
    transformPathsToOrigin tr (renderChunks chunks tail) vb =
      renderShifted (fun d => tr d (-vb.minX) (-vb.minY)) chunks tail := by
  unfold transformPathsToOrigin
  rw [if_neg hoff]
  rw [if_neg (by rw [hng]; exact Bool.false_ne_true)]
  unfold shiftAllPathDs
  exact replaceDs_chunks _ chunks tail hw ht

unseal Rat.mul Rat.add Rat.sub Rat.inv Rat.ofScientific in
/-- Witness for C3: a document with one path inside `defs`/`clipPath` and
one visible path, shifted with an engine that fails on the nested path:
the nested `d` is kept, the visible one is rewritten, nothing else
changes. -/
theorem direct_shift_strategy_witness :
    transformPathsToOrigin
      (fun d _ _ => if d = "M 60 60".toList then some ("M10 10".toList) else none)
      ("<svg viewBox=\"50 50 100 100\"><defs><clipPath><path d=\"M 55 55\"/></clipPath></defs><path d=\"M 60 60\"/></svg>".toList)
      ⟨50, 50, 100, 100⟩ =
    ("<svg viewBox=\"50 50 100 100\"><defs><clipPath><path d=\"M 55 55\"/></clipPath></defs><path d=\"M10 10\"/></svg>".toList) := by
  have hdoc : ("<svg viewBox=\"50 50 100 100\"><defs><clipPath><path d=\"M 55 55\"/></clipPath></defs><path d=\"M 60 60\"/></svg>".toList : Str) =
      renderChunks
        [("<svg viewBox=\"50 50 100 100\"><defs><clipPath><path".toList,
          ⟨' ', 'd', '"', 'M', " 55 55".toList, '"'⟩),
         ("/></clipPath></defs><path".toList,
          ⟨' ', 'd', '"', 'M', " 60 60".toList, '"'⟩)]
        ("/></svg>".toList) := by decide
  rw [hdoc]
  rw [direct_shift_strategy
    (fun d _ _ => if d = "M 60 60".toList then some ("M10 10".toList) else none)
    ⟨50, 50, 100, 100⟩
    [("<svg viewBox=\"50 50 100 100\"><defs><clipPath><path".toList,
      ⟨' ', 'd', '"', 'M', " 55 55".toList, '"'⟩),
     ("/></clipPath></defs><path".toList,
      ⟨' ', 'd', '"', 'M', " 60 60".toList, '"'⟩)]
    ("/></svg>".toList)
    (by decide) (by decide) (by decide) (by decide)]
  decide
